import Mathlib

/-!
Verification development for the world-building app
(repository Lumina-Oz-Dev/world-building-app).

The development shallowly embeds the components the specification talks
about:

* the text sanitizer `cleanText` (src/unnamed/part_001 lines 29-44 and
  src/src/hooks/useGeminiApi.js lines 24-39);
* the generation client `generateText` (src/unnamed/part_001 lines 52-111);
* the image client `generateImageDescription` / `generateImageWithFallback`
  (src/unnamed/part_001 lines 191-281);
* the orchestrator `generateAllVisualContent` / `generateWorldContent`
  (src/unnamed/part_001 lines 288-509);
* the document exporter `WorldPDFExporter.exportWorldToPDF`
  (src/unnamed/part_000 lines 391-478).

Strings are modelled as `List Char` where character-level induction is
needed and as `String` elsewhere.  Network calls, the JSON parser and the
clock are modelled as an explicit environment of functions, so every
definition stays executable.
-/

namespace WorldBuild

/-! ## Text sanitizer

JS source (src/unnamed/part_001 lines 29-44):

  const cleanText = (text) => \x7b
    if (!text) return '';
    return text
      .replace(bold-star-pattern, '$1')
      .replace(star-pattern, '$1')
      .replace(heading-pattern-multiline, '')
      .replace(bold-underscore-pattern, '$1')
      .replace(underscore-pattern, '$1')
      .replace(three-or-more-newlines, newline-newline)
      .trim();
  \x7d

Each `.replace` with a global regex is embedded as a left-to-right scan.
The scans that can jump forward by more than one character take an
explicit fuel argument equal to the input length, which is never
exhausted (every step consumes at least one character); the fuel only
makes the recursion structural so that the kernel can evaluate it.
-/

/-- Whitespace class of the JS regexes and of String.prototype.trim,
restricted to the ASCII range (the only characters the claims involve). -/
def isJsSpace (c : Char) : Bool :=
  c = ' ' || c = '\t' || c = '\n' || c = '\r' || c = '\x0b' || c = '\x0c'

/-- One global-replace pass of the double-marker emphasis regex
(two markers, one or more non-marker characters, two markers; the match
is replaced by its inner content).  At a failed position the scan
advances by a single character, exactly like a global JS regex. -/
def emph2Go (m : Char) : Nat → List Char → List Char
  | _, [] => []
  | 0, s => s
  | fuel + 1, c :: rest =>
    if c = m ∧ rest.head? = some m then
      let rest2 := rest.tail
      let content := rest2.takeWhile (· ≠ m)
      let rest' := rest2.dropWhile (· ≠ m)
      if content ≠ [] ∧ rest'.take 2 = [m, m] then
        content ++ emph2Go m fuel (rest'.drop 2)
      else
        c :: emph2Go m fuel rest
    else
      c :: emph2Go m fuel rest

/-- Double-marker emphasis removal (the `.replace` for two stars or two
underscores).  Fuel = length is enough: every step consumes a character. -/
def emph2 (m : Char) (s : List Char) : List Char :=
  emph2Go m s.length s

/-- One global-replace pass of the single-marker emphasis regex
(marker, one or more non-marker characters, marker). -/
def emph1Go (m : Char) : Nat → List Char → List Char
  | _, [] => []
  | 0, s => s
  | fuel + 1, c :: rest =>
    if c = m then
      let content := rest.takeWhile (· ≠ m)
      let rest' := rest.dropWhile (· ≠ m)
      if content ≠ [] ∧ rest' ≠ [] then
        content ++ emph1Go m fuel rest'.tail
      else
        c :: emph1Go m fuel rest
    else
      c :: emph1Go m fuel rest

/-- Single-marker emphasis removal (the `.replace` for one star or one
underscore). -/
def emph1 (m : Char) (s : List Char) : List Char :=
  emph1Go m s.length s

/-- One multiline global-replace pass of the heading regex: at every
line start, a run of one to six hash characters followed by greedy
whitespace is removed.  `atStart` records whether the current position
is a line start (position zero or right after a newline). -/
def stripHGo : Nat → Bool → List Char → List Char
  | _, _, [] => []
  | 0, _, s => s
  | fuel + 1, atStart, c :: rest =>
    if atStart ∧ c = '#' then
      let hs := (c :: rest).takeWhile (· = '#')
      if hs.length ≤ 6 then
        let afterH := (c :: rest).drop hs.length
        let ws := afterH.takeWhile isJsSpace
        let rest' := afterH.dropWhile isJsSpace
        stripHGo fuel (ws.getLast? = some '\n') rest'
      else
        stripHGo fuel false ((c :: rest).drop 6)
    else
      c :: stripHGo fuel (c = '\n') rest

/-- Heading-marker removal (the multiline `.replace` of the hash regex). -/
def stripHeadings (s : List Char) : List Char :=
  stripHGo s.length true s

/-- What a maximal newline run of length `k` becomes: runs of three or
more newlines collapse to two, shorter runs are kept. -/
def emitNl (k : Nat) : List Char :=
  if 3 ≤ k then ['\n', '\n'] else List.replicate k '\n'

/-- Scan for the newline-collapsing `.replace`; `k` counts the pending
newline run. -/
def collapseGo : Nat → List Char → List Char
  | k, [] => emitNl k
  | k, c :: rest =>
    if c = '\n' then collapseGo (k + 1) rest
    else emitNl k ++ c :: collapseGo 0 rest

/-- Collapse every run of three or more newlines to exactly two. -/
def collapseNl (s : List Char) : List Char :=
  collapseGo 0 s

/-- Remove trailing JS whitespace. -/
def trimRight : List Char → List Char
  | [] => []
  | c :: rest =>
    let r := trimRight rest
    if r = [] ∧ isJsSpace c then [] else c :: r

/-- String.prototype.trim: drop leading and trailing whitespace. -/
def jsTrim (s : List Char) : List Char :=
  trimRight (s.dropWhile isJsSpace)

/-- The sanitizer itself: the six replacement passes in source order,
then the trim.  The guard on the empty list mirrors the falsy check
`if (!text) return ''`. -/
def cleanText (s : List Char) : List Char :=
  if s = [] then []
  else
    jsTrim (collapseNl (emph1 '_' (emph2 '_'
      (stripHeadings (emph1 '*' (emph2 '*' s))))))

/-- The sanitizer on `String`. -/
def cleanTextS (s : String) : String :=
  ⟨cleanText s.data⟩

/-- Does the list contain three consecutive newline characters? -/
def hasTriple : List Char → Bool
  | [] => false
  | c :: rest =>
    if c = '\n' ∧ rest.take 2 = ['\n', '\n'] then true else hasTriple rest

/-! ## Generation client

The network, the JSON parser and the credential are modelled as an
explicit environment.  `generateText` (src/unnamed/part_001 lines
52-111) maps one prompt to one call of the text endpoint; its outcome
is a value of `TextOutcome`.  `generateImageWithFallback` (lines
229-281) calls the image endpoint, whose outcome is an `ImageOutcome`.
Exceptions are modelled with `Except`: a thrown error is `.error`, a
try/catch is a `match` on the `Except`. -/

/-- A JS value as far as this program inspects one: strings, arrays and
objects with string keys. -/
inductive JsValue where
  | jstr (s : String)
  | jarr (elems : List JsValue)
  | jobj (fields : List (String × JsValue))

/-- Outcome of one call of the text-generation endpoint.
`netError` is a rejected fetch, `badStatus` a non-ok response status,
`badShape` a response failing the candidates/content shape check, and
`ok` a response whose `candidates[0].content.parts[0].text` is
`content`. -/
inductive TextOutcome where
  | netError (msg : String)
  | badStatus (code : Nat)
  | badShape
  | ok (content : String)

/-- Did the text call fail (any of the three error outcomes)? -/
def TextOutcome.isFailure : TextOutcome → Bool
  | .ok _ => false
  | _ => true

/-- Outcome of one call of the image-synthesis endpoint.  `ok none` is a
success response whose `predictions[0].bytesBase64Encoded` is absent
(missing or empty predictions included); `ok (some b)` carries the
base64 payload. -/
inductive ImageOutcome where
  | netError (msg : String)
  | badStatus (code : Nat) (errorText : String)
  | ok (bytes : Option String)

/-- The environment of one run: the credential flag
(`process.env.REACT_APP_GEMINI_API_KEY` present or not), the two
endpoints as functions from the request prompt to an outcome, and
`JSON.parse` as a partial function (`none` is a parse exception). -/
structure Env where
  apiKey : Bool
  textOutcome : String → TextOutcome
  imageOutcome : String → ImageOutcome
  jsonParse : String → Option JsValue

/-- generateText: one request to the text endpoint; non-ok status and
bad shape throw, the outer catch rewraps every error; with a schema the
payload is JSON-parsed, and a parse failure falls back to the raw text. -/
def generateText (env : Env) (prompt : String) (schema : Option JsValue) :
    Except String JsValue :=
  match env.textOutcome prompt with
  | .netError msg =>
    .error ("Failed to generate content: " ++ msg)
  | .badStatus code =>
    .error ("Failed to generate content: API request failed with status "
      ++ toString code)
  | .badShape =>
    .error "Failed to generate content: Invalid response structure from API"
  | .ok content =>
    match schema with
    | none => .ok (.jstr content)
    | some _ =>
      match env.jsonParse content with
      | some v => .ok v
      | none => .ok (.jstr content)

/-- The error message generateText produces for a failed outcome
(used to state which error the orchestrator rejects with). -/
def failureMessage : TextOutcome → String
  | .netError msg => "Failed to generate content: " ++ msg
  | .badStatus code =>
    "Failed to generate content: API request failed with status "
      ++ toString code
  | .badShape =>
    "Failed to generate content: Invalid response structure from API"
  | .ok _ => ""

/-- JS `prompt.substring(0, n)`: the first `n` characters, clamped. -/
def jsSubstring (s : String) (n : Nat) : String :=
  ⟨s.data.take n⟩

/-! ## Image client -/

/-- The result object of the image client: either an image
(`isImage: true`) or a textual description fallback
(`isDescription: true`, with the truncated prompt echo). -/
inductive ImageResult where
  | image (type_ : String) (bytes : String)
  | description (type_ : String) (text : String) (promptEcho : String)

/-- The `isImage` flag of an image-client result object. -/
def ImageResult.isImage : ImageResult → Bool
  | .image .. => true
  | .description .. => false

/-- The `isDescription` flag of an image-client result object. -/
def ImageResult.isDescription : ImageResult → Bool
  | .image .. => false
  | .description .. => true

/-- The art-direction brief prompt built by generateImageDescription
(src/unnamed/part_001 lines 192-202). -/
def descriptionPrompt (prompt : String) : String :=
  "Based on this image generation prompt: \"" ++ prompt ++ "\"\n\n"
  ++ "Create a detailed visual description that an artist could use to "
  ++ "create this image. Include:\n"
  ++ "- Composition and perspective details\n"
  ++ "- Color palette and lighting description\n"
  ++ "- Key visual elements and their placement\n"
  ++ "- Atmosphere and mood\n"
  ++ "- Specific artistic style notes\n"
  ++ "- Technical details for the artist\n\n"
  ++ "Write this as a comprehensive art direction brief that captures "
  ++ "the essence of what the image should look like."

/-- generateImageDescription (src/unnamed/part_001 lines 191-221): ask
the text model for an art-direction brief; on success sanitize it, on
any error return a literal object built from the prompt alone.  Both
paths echo the first 200 characters of the prompt with a three-dot
suffix. -/
def generateImageDescription (env : Env) (prompt type_ : String) :
    Except String ImageResult :=
  match generateText env (descriptionPrompt prompt) none with
  | .ok (.jstr description) =>
    .ok (.description type_ (cleanTextS description)
      (jsSubstring prompt 200 ++ "..."))
  | .ok _ =>
    .ok (.description type_ (cleanTextS "")
      (jsSubstring prompt 200 ++ "..."))
  | .error _ =>
    .ok (.description type_
      ("Visual concept for " ++ type_ ++ ": " ++ jsSubstring prompt 300
        ++ "...")
      (jsSubstring prompt 200 ++ "..."))

/-- generateImageWithFallback (src/unnamed/part_001 lines 229-281): with
no credential go straight to the description fallback; otherwise call
the image endpoint and return the image bytes on success, falling back
to the description on a non-ok status, a missing payload, or a network
error. -/
def generateImageWithFallback (env : Env) (prompt type_ : String) :
    Except String ImageResult :=
  if env.apiKey = false then
    generateImageDescription env prompt type_
  else
    match env.imageOutcome prompt with
    | .ok (some bytes) => .ok (.image type_ bytes)
    | .ok none => generateImageDescription env prompt type_
    | .badStatus _ _ => generateImageDescription env prompt type_
    | .netError _ => generateImageDescription env prompt type_

/-! ## Prompt builders (src/unnamed/part_001 lines 118-183 and 419-478) -/

/-- getMoodFromWorldType: the fixed mood lookup table with its default. -/
def getMoodFromWorldType (worldType : String) : String :=
  if worldType = "Medieval Fantasy" then
    "epic, mystical, magical, ancient, heroic"
  else if worldType = "Sci-Fi Future" then
    "futuristic, technological, sleek, advanced, cosmic"
  else if worldType = "Post-Apocalyptic" then
    "gritty, desolate, survival, ruins, harsh"
  else if worldType = "Steampunk" then
    "industrial, brass, steam, Victorian, mechanical"
  else if worldType = "Cyberpunk" then
    "neon, urban, dystopian, high-tech, noir"
  else if worldType = "Modern Urban Fantasy" then
    "contemporary, magical realism, urban, mysterious"
  else "atmospheric, detailed, immersive"

/-- Field access `v.k` on a JS object: none when the key is absent or
the value is not an object. -/
def JsValue.getField : JsValue → String → Option JsValue
  | .jobj fields, k => (fields.find? (fun kv => kv.1 == k)).map (fun kv => kv.2)
  | _, _ => none

/-- A field interpolated into a template string: a missing field prints
as the string "undefined", a non-string value via its object coercion. -/
def jsFieldString (v : JsValue) (k : String) : String :=
  match v.getField k with
  | some (.jstr s) => s
  | some _ => "[object]"
  | none => "undefined"

/-- createWorldImagePrompt. -/
def createWorldImagePrompt (userIdea worldType : String) : String :=
  "Create a stunning cinematic concept art depicting a " ++ worldType
  ++ " world inspired by: \"" ++ userIdea ++ "\". \n"
  ++ "Style: High-quality digital art, masterpiece quality, detailed "
  ++ "environment, atmospheric lighting, professional game concept art.\n"
  ++ "Composition: Epic wide landscape view showcasing the world's unique "
  ++ "characteristics and atmosphere.\n"
  ++ "Mood: " ++ getMoodFromWorldType worldType
  ++ ", breathtaking, immersive.\n"
  ++ "Technical: 4K quality, sharp details, vibrant colors, dramatic "
  ++ "composition."

/-- createCharacterImagePrompt. -/
def createCharacterImagePrompt (character : JsValue) (worldType : String) :
    String :=
  "Character concept art portrait of " ++ jsFieldString character "name"
  ++ ", a " ++ jsFieldString character "role" ++ " in a " ++ worldType
  ++ " world.\n"
  ++ "Character Description: " ++ jsFieldString character "description" ++ "\n"
  ++ "Style: Professional digital character portrait, detailed, "
  ++ "high-quality game art style, masterpiece.\n"
  ++ "Composition: Upper body portrait, showing personality and role "
  ++ "clearly.\n"
  ++ "Mood: " ++ getMoodFromWorldType worldType
  ++ ", character-focused, expressive.\n"
  ++ "Technical: Sharp details, good lighting, character design quality."

/-- The fixed scenario archetype phrases. -/
def scenarioTypes : List String :=
  ["a key location where important events unfold",
   "a mysterious place filled with secrets and danger",
   "a central hub where characters gather and stories begin"]

/-- createScenarioImagePrompt. -/
def createScenarioImagePrompt (index : Nat) (userIdea worldType : String) :
    String :=
  "Environmental concept art for " ++ scenarioTypes.getD index "undefined"
  ++ " in a " ++ worldType ++ " world.\n"
  ++ "World Concept: \"" ++ userIdea ++ "\"\n"
  ++ "Style: Atmospheric environment art, cinematic composition, "
  ++ "professional quality.\n"
  ++ "Elements: Showcase unique features and atmosphere of this important "
  ++ "location.\n"
  ++ "Mood: " ++ getMoodFromWorldType worldType
  ++ ", environmental storytelling, immersive.\n"
  ++ "Technical: Detailed background art, good composition, atmospheric "
  ++ "lighting."

/-- The narrative prompt of generateWorldContent. -/
def narrativePrompt (userIdea worldType : String) : String :=
  "Create a detailed world-building narrative for a " ++ worldType
  ++ " world based on the idea: \"" ++ userIdea
  ++ "\". Include history, geography, key factions, magic systems (if "
  ++ "applicable), and societal structure. Make it rich and evocative. "
  ++ "Write in engaging prose format with multiple paragraphs. Do not use "
  ++ "markdown formatting, asterisks, or special characters. Write in "
  ++ "plain text with natural paragraph breaks."

/-- The game/book ideas prompt of generateWorldContent. -/
def ideasPrompt (userIdea worldType : String) : String :=
  "Based on the world idea \"" ++ userIdea ++ "\" in a " ++ worldType
  ++ " setting, generate 5 distinct ideas for games or books set in this "
  ++ "world. Each should be creative and different from the others."

/-- The customization prompt of generateWorldContent. -/
def customizationPrompt (userIdea worldType : String) : String :=
  "For a " ++ worldType ++ " world based on \"" ++ userIdea
  ++ "\", suggest 5 specific ways a developer could further customize or "
  ++ "expand upon this world. Be practical and creative."

/-- The character concepts prompt of generateWorldContent. -/
def charactersPrompt (userIdea worldType : String) : String :=
  "Create 5 compelling character concepts for a " ++ worldType
  ++ " world based on \"" ++ userIdea
  ++ "\". Each character should be unique and fit the world's tone."

/-- The conceptual maps prompt of generateWorldContent. -/
def mapsPrompt (userIdea worldType : String) : String :=
  "Create textual descriptions for 2 different regions/areas in a "
  ++ worldType ++ " world based on \"" ++ userIdea
  ++ "\". Include geography, notable landmarks, settlements, and "
  ++ "atmosphere. Format each as a separate section with clear headings "
  ++ "using simple text - no asterisks or markdown. Use plain text "
  ++ "formatting only."

/-- The ideas schema literal (title/synopsis records). -/
def ideasSchema : JsValue :=
  .jobj [("type", .jstr "ARRAY"),
         ("items", .jobj [("type", .jstr "OBJECT"),
           ("properties", .jobj [("title", .jobj [("type", .jstr "STRING")]),
             ("synopsis", .jobj [("type", .jstr "STRING")])]),
           ("propertyOrdering", .jarr [.jstr "title", .jstr "synopsis"])])]

/-- The customization schema literal (title/description records). -/
def customizationSchema : JsValue :=
  .jobj [("type", .jstr "ARRAY"),
         ("items", .jobj [("type", .jstr "OBJECT"),
           ("properties", .jobj [("title", .jobj [("type", .jstr "STRING")]),
             ("description", .jobj [("type", .jstr "STRING")])]),
           ("propertyOrdering", .jarr [.jstr "title", .jstr "description"])])]

/-- The characters schema literal (name/description/role records). -/
def charactersSchema : JsValue :=
  .jobj [("type", .jstr "ARRAY"),
         ("items", .jobj [("type", .jstr "OBJECT"),
           ("properties", .jobj [("name", .jobj [("type", .jstr "STRING")]),
             ("description", .jobj [("type", .jstr "STRING")]),
             ("role", .jobj [("type", .jstr "STRING")])]),
           ("propertyOrdering",
            .jarr [.jstr "name", .jstr "description", .jstr "role"])])]

/-! ## Orchestrator (src/unnamed/part_001 lines 288-509) -/

/-- The per-slot progress record of the hook state. -/
structure SlotState where
  loading : Bool
  completed : Bool
  failed : Bool
deriving DecidableEq

/-- The image-generation progress state: one concept slot, six character
slots, three scenario slots. -/
structure ProgressState where
  concept : SlotState
  characters : List SlotState
  scenarios : List SlotState
deriving DecidableEq

/-- The all-false slot value every reset uses. -/
def freshSlot : SlotState := ⟨false, false, false⟩

/-- The reset value of the progress state (1 concept + 6 characters + 3
scenarios, all idle). -/
def initialProgress : ProgressState :=
  ⟨freshSlot, List.replicate 6 freshSlot, List.replicate 3 freshSlot⟩

/-- Update one character slot of the progress state. -/
def ProgressState.setChar (ps : ProgressState) (i : Nat) (v : SlotState) :
    ProgressState :=
  { ps with characters := ps.characters.set i v }

/-- Update one scenario slot of the progress state. -/
def ProgressState.setScenario (ps : ProgressState) (i : Nat) (v : SlotState) :
    ProgressState :=
  { ps with scenarios := ps.scenarios.set i v }

/-- The world aggregate returned by the orchestrator, with the fields of
the `worldData` object of generateWorldContent. -/
structure WorldData where
  worldNarrative : String
  gameBookIdeas : List JsValue
  customizationOptions : List JsValue
  characterConcepts : List JsValue
  conceptualMaps : String
  conceptImage : Option String
  conceptImageDescription : Option ImageResult
  characterVisuals : List ImageResult
  scenarioVisuals : List ImageResult
  userIdea : String
  worldType : String

/-- JS `Array.isArray(v) ? v : []`. -/
def asArr : JsValue → List JsValue
  | .jarr l => l
  | _ => []

/-- The text payload of a schema-free generateText result (always a
string for such calls). -/
def asString : JsValue → String
  | .jstr s => s
  | _ => ""

/-- The character-visuals loop of generateAllVisualContent (lines
324-348): for each of the first six characters, mark the slot loading,
attempt the image, record the result and mark the slot completed.  A
rejected attempt ends the loop and surfaces to the enclosing catch,
keeping the progress updates made so far. -/
def charLoop (env : Env) (worldType : String) :
    List JsValue → Nat → List ImageResult → ProgressState →
    ProgressState × Except String (List ImageResult)
  | [], _, acc, ps => (ps, .ok acc)
  | ch :: rest, i, acc, ps =>
    let ps1 := ps.setChar i ⟨true, false, false⟩
    match generateImageWithFallback env
        (createCharacterImagePrompt ch worldType) "character" with
    | .error e => (ps1, .error e)
    | .ok r =>
      let ps2 := ps1.setChar i ⟨false, true, !r.isImage⟩
      charLoop env worldType rest (i + 1) (acc ++ [r]) ps2

/-- The scenario loop of generateAllVisualContent (lines 357-380), over
the three fixed scenario indices. -/
def scenLoop (env : Env) (userIdea worldType : String) :
    List Nat → List ImageResult → ProgressState →
    ProgressState × Except String (List ImageResult)
  | [], acc, ps => (ps, .ok acc)
  | i :: rest, acc, ps =>
    let ps1 := ps.setScenario i ⟨true, false, false⟩
    match generateImageWithFallback env
        (createScenarioImagePrompt i userIdea worldType) "scenario" with
    | .error e => (ps1, .error e)
    | .ok r =>
      let ps2 := ps1.setScenario i ⟨false, true, !r.isImage⟩
      scenLoop env userIdea worldType rest (acc ++ [r]) ps2

/-- The scenario phase followed by the final assignment of
`visualResults.scenarioVisuals`; an error reaches the enclosing catch,
which keeps the aggregate as built so far. -/
def scenarioPhase (env : Env) (wd : WorldData) (ps : ProgressState) :
    WorldData × ProgressState :=
  match scenLoop env wd.userIdea wd.worldType [0, 1, 2] [] ps with
  | (ps', .error _) => (wd, ps')
  | (ps', .ok svs) => ({ wd with scenarioVisuals := svs }, ps')

/-- generateAllVisualContent (lines 288-389): concept art, then up to
six character visuals, then three scenario visuals.  The whole body is
inside a try/catch that logs and returns the partially built aggregate,
so an error after any step keeps what was already assigned. -/
def generateAllVisualContent (env : Env) (wd : WorldData)
    (ps : ProgressState) : WorldData × ProgressState :=
  let ps1 := { ps with concept := ⟨true, false, false⟩ }
  match generateImageWithFallback env
      (createWorldImagePrompt wd.userIdea wd.worldType) "concept" with
  | .error _ => (wd, ps1)
  | .ok conceptResult =>
    let wd1 :=
      match conceptResult with
      | .image _ bytes => { wd with conceptImage := some bytes }
      | .description .. =>
        { wd with conceptImageDescription := some conceptResult }
    let ps2 := { ps1 with concept := ⟨false, true, !conceptResult.isImage⟩ }
    if 0 < wd.characterConcepts.length then
      match charLoop env wd.worldType (wd.characterConcepts.take 6) 0 [] ps2
      with
      | (ps3, .error _) => (wd1, ps3)
      | (ps3, .ok cvs) =>
        scenarioPhase env { wd1 with characterVisuals := cvs } ps3
    else
      scenarioPhase env wd1 ps2

/-- generateWorldContent (lines 398-509): reset the progress state,
require the credential, run the five text-generation calls in order
(any failure rejects the whole run), build the base aggregate, then
optionally run the visual phase.  The result pairs the rejected-or-
returned aggregate with the final progress state. -/
def generateWorldContent (env : Env) (userIdea worldType : String)
    (generateVisuals : Bool) : Except String WorldData × ProgressState :=
  let ps := initialProgress
  if env.apiKey = false then
    (.error "API key not configured. Please check your environment variables.",
     ps)
  else
    match generateText env (narrativePrompt userIdea worldType) none with
    | .error e => (.error e, ps)
    | .ok v1 =>
      match generateText env (ideasPrompt userIdea worldType)
          (some ideasSchema) with
      | .error e => (.error e, ps)
      | .ok v2 =>
        match generateText env (customizationPrompt userIdea worldType)
            (some customizationSchema) with
        | .error e => (.error e, ps)
        | .ok v3 =>
          match generateText env (charactersPrompt userIdea worldType)
              (some charactersSchema) with
          | .error e => (.error e, ps)
          | .ok v4 =>
            match generateText env (mapsPrompt userIdea worldType) none with
            | .error e => (.error e, ps)
            | .ok v5 =>
              let wd : WorldData :=
                { worldNarrative := cleanTextS (asString v1)
                  gameBookIdeas := asArr v2
                  customizationOptions := asArr v3
                  characterConcepts := asArr v4
                  conceptualMaps := cleanTextS (asString v5)
                  conceptImage := none
                  conceptImageDescription := none
                  characterVisuals := []
                  scenarioVisuals := []
                  userIdea := userIdea
                  worldType := worldType }
              if generateVisuals then
                let (wd', ps') := generateAllVisualContent env wd ps
                (.ok wd', ps')
              else
                (.ok wd, ps)

/-! ## Document exporter (src/unnamed/part_000 lines 144-481)

The drawing layer (jsPDF coordinates, page breaks, fonts) is not what
any claim is about; the export is embedded as the sequence of logical
items the source emits, in source order, plus the computed filename. -/

/-- One emitted element of the exported document. -/
inductive DocItem where
  | header (worldType userIdea : String)
  | sectionHeader (title : String)
  | text (s : String)
  | charCard (name role description : String) (index : Nat)
  | scenarioCard (index : Nat)
  | ideaItem (title synopsis : String) (index : Nat)
  | customItem (title description : String) (index : Nat)
  | footer

/-- Is the item a character card? -/
def DocItem.isCharCard : DocItem → Bool
  | .charCard .. => true
  | _ => false

/-- Is the item a scenario card? -/
def DocItem.isScenarioCard : DocItem → Bool
  | .scenarioCard _ => true
  | _ => false

/-- JS `maybeString || fallbackString` on an optional object field:
a missing field and an empty string are both falsy. -/
def jsOrString (o : Option JsValue) (d : String) : String :=
  match o with
  | some (.jstr s) => if s = "" then d else s
  | some _ => "[object]"
  | none => d

/-- The placeholder character object the fill-up loop pushes
(src/unnamed/part_000 lines 426-432). -/
def placeholderCharacter (n : Nat) : JsValue :=
  .jobj [("name", .jstr ("Character " ++ toString n)),
         ("role", .jstr "Available for expansion"),
         ("description",
          .jstr ("Additional character concept available for development "
            ++ "in your world."))]

/-- The `while (allCharacters.length < 6) push placeholder` loop in
closed form: placeholders numbered from the current length plus one. -/
def padCharacters (l : List JsValue) : List JsValue :=
  l ++ (List.range (6 - l.length)).map (fun i => placeholderCharacter (l.length + i + 1))

/-- addCharacterCard (lines 238-275): the card shows the name, role and
description fields with their per-field fallbacks. -/
def charCardItem (i : Nat) (ch : JsValue) : DocItem :=
  .charCard
    (jsOrString (ch.getField "name") ("Character " ++ toString (i + 1)))
    (jsOrString (ch.getField "role") "Role not specified")
    (jsOrString (ch.getField "description")
      "Character description available for expansion")
    i

/-- The sanitized world type of the filename:
`worldType.replace(non-alphanumeric-global-ignorecase, underscore)`
followed by `.toLowerCase()`. -/
def sanitizeWorldType (worldType : String) : String :=
  ⟨(worldType.data.map (fun c =>
      if ('a' ≤ c ∧ c ≤ 'z') ∨ ('A' ≤ c ∧ c ≤ 'Z') ∨ ('0' ≤ c ∧ c ≤ '9')
      then c else '_')).map
    (fun c => if 'A' ≤ c ∧ c ≤ 'Z' then Char.ofNat (c.toNat + 32) else c)⟩

/-- The export filename (lines 469-472):
`world_` ++ sanitized world type ++ `_` ++ date stamp ++ `.pdf`;
`today` stands for `new Date().toISOString().slice(0, 10)`. -/
def exportFilename (worldType today : String) : String :=
  "world_" ++ sanitizeWorldType worldType ++ "_" ++ today ++ ".pdf"

/-- exportWorldToPDF (lines 391-478) as its emitted item sequence plus
the filename: header, original idea, optional narrative, always six
character cards (padded), always three scenario cards, optional idea
and customization lists, optional maps, footer. -/
def exportWorldToPDF (wd : WorldData) (today : String) :
    List DocItem × String :=
  let items :=
    [DocItem.header wd.worldType wd.userIdea,
     DocItem.sectionHeader "Original World Idea",
     DocItem.text ("\"" ++ wd.userIdea ++ "\"")]
    ++ (if wd.worldNarrative ≠ "" then
          [DocItem.sectionHeader "World Narrative", DocItem.text wd.worldNarrative]
        else [])
    ++ [DocItem.sectionHeader "Character Concepts"]
    ++ ((padCharacters wd.characterConcepts).take 6).enum.map
        (fun p => charCardItem p.1 p.2)
    ++ [DocItem.sectionHeader "World Scenarios"]
    ++ (List.range 3).map DocItem.scenarioCard
    ++ (if 0 < wd.gameBookIdeas.length then
          [DocItem.sectionHeader "Game & Book Ideas"]
          ++ wd.gameBookIdeas.enum.map (fun p =>
              DocItem.ideaItem (jsFieldString p.2 "title")
                (jsFieldString p.2 "synopsis") p.1)
        else [])
    ++ (if 0 < wd.customizationOptions.length then
          [DocItem.sectionHeader "Customization Options"]
          ++ wd.customizationOptions.enum.map (fun p =>
              DocItem.customItem (jsFieldString p.2 "title")
                (jsFieldString p.2 "description") p.1)
        else [])
    ++ (if wd.conceptualMaps ≠ "" then
          [DocItem.sectionHeader "Conceptual Maps & Regions",
           DocItem.text wd.conceptualMaps]
        else [])
    ++ [DocItem.footer]
  (items, exportFilename wd.worldType today)

/-! ## Concrete witness data

Environments and aggregates used to instantiate the theorems below on
explicit inputs. -/

/-- A character whose sanitization is invisible to every pass of the
sanitizer: not an emphasis or heading marker and not whitespace. -/
def cleanChar (c : Char) : Prop :=
  c ≠ '*' ∧ c ≠ '#' ∧ c ≠ '_' ∧ isJsSpace c = false

instance (c : Char) : Decidable (cleanChar c) := by
  unfold cleanChar
  infer_instance

/-- A parsed character record used by the concrete environments. -/
def sampleCharacterRecord : JsValue :=
  .jobj [("name", .jstr "A"), ("description", .jstr "D"), ("role", .jstr "R")]

/-- Environment in which every endpoint succeeds and every
schema-constrained payload parses to a two-record array. -/
def envTwoCharacters : Env :=
  { apiKey := true
    textOutcome := fun _ => .ok "x"
    imageOutcome := fun _ => .ok (some "B")
    jsonParse := fun _ => some (.jarr [sampleCharacterRecord,
      sampleCharacterRecord]) }

/-- Environment whose text endpoint always fails with a network error. -/
def envTextDown : Env :=
  { apiKey := true
    textOutcome := fun _ => .netError "boom"
    imageOutcome := fun _ => .ok none
    jsonParse := fun _ => none }

/-- Environment with no credential and a working text endpoint. -/
def envNoKey : Env :=
  { apiKey := false
    textOutcome := fun _ => .ok "d"
    imageOutcome := fun _ => .ok none
    jsonParse := fun _ => none }

/-- Environment with a working text endpoint whose payloads never parse
as JSON. -/
def envBadJson : Env :=
  { apiKey := true
    textOutcome := fun _ => .ok "not json"
    imageOutcome := fun _ => .ok none
    jsonParse := fun _ => none }

/-- Number of character visuals of a generation result. -/
def characterVisualsCount : Except String WorldData → Nat
  | .ok wd => wd.characterVisuals.length
  | .error _ => 0

/-- Number of scenario visuals of a generation result. -/
def scenarioVisualsCount : Except String WorldData → Nat
  | .ok wd => wd.scenarioVisuals.length
  | .error _ => 0

/-- Number of parsed character records of a generation result. -/
def characterConceptsCount : Except String WorldData → Nat
  | .ok wd => wd.characterConcepts.length
  | .error _ => 0

/-- A second, distinct parsed character record, so that per-record
image results can be told apart. -/
def characterRecordB : JsValue :=
  .jobj [("name", .jstr "B"), ("description", .jstr "E"), ("role", .jstr "S")]

/-- Environment in which every endpoint succeeds, schema-constrained
payloads parse to a two-record array of distinct records, and the image
endpoint echoes the request prompt as the image bytes — so each visual
slot records which prompt produced it. -/
def envAlignedVisuals : Env :=
  { apiKey := true
    textOutcome := fun _ => .ok "x"
    imageOutcome := fun p => .ok (some p)
    jsonParse := fun _ => some (.jarr [sampleCharacterRecord,
      characterRecordB]) }

/-- The aggregate `generateWorldContent envAlignedVisuals "i" "w" true`
computes to (checked definitionally in the witness below): the first
character visual carries the prompt of the first record, the second
that of the second record, in record order. -/
def worldAlignedVisuals : WorldData :=
  { worldNarrative := "x"
    gameBookIdeas := [sampleCharacterRecord, characterRecordB]
    customizationOptions := [sampleCharacterRecord, characterRecordB]
    characterConcepts := [sampleCharacterRecord, characterRecordB]
    conceptualMaps := "x"
    conceptImage := some (createWorldImagePrompt "i" "w")
    conceptImageDescription := none
    characterVisuals :=
      [.image "character" (createCharacterImagePrompt sampleCharacterRecord "w"),
       .image "character" (createCharacterImagePrompt characterRecordB "w")]
    scenarioVisuals :=
      [.image "scenario" (createScenarioImagePrompt 0 "i" "w"),
       .image "scenario" (createScenarioImagePrompt 1 "i" "w"),
       .image "scenario" (createScenarioImagePrompt 2 "i" "w")]
    userIdea := "i"
    worldType := "w" }

/-- The progress state of a visuals-enabled run over two character
records whose image attempts all succeed: concept done, two character
slots done, all scenario slots done. -/
def progressTwoCharacters : ProgressState :=
  { concept := ⟨false, true, false⟩
    characters := ⟨false, true, false⟩ :: ⟨false, true, false⟩ ::
      List.replicate 4 freshSlot
    scenarios := List.replicate 3 ⟨false, true, false⟩ }

/-- A concrete aggregate with the Post-Apocalyptic category. -/
def samplePostApocalypticWd : WorldData :=
  { worldNarrative := ""
    gameBookIdeas := []
    customizationOptions := []
    characterConcepts := []
    conceptualMaps := ""
    conceptImage := none
    conceptImageDescription := none
    characterVisuals := []
    scenarioVisuals := []
    userIdea := "floating cities above toxic clouds"
    worldType := "Post-Apocalyptic" }

/-! ## Helper lemmas about the sanitizer -/

/-- A scan for a marker that does not occur leaves the list unchanged. -/
theorem emph2Go_eq_self (m : Char) :
    ∀ (fuel : Nat) (s : List Char), m ∉ s → emph2Go m fuel s = s := by
  intro fuel
  induction fuel with
  | zero => intro s _; cases s <;> rfl
  | succ n ih =>
    intro s hm
    cases s with
    | nil => rfl
    | cons c rest =>
      have hc : c ≠ m := fun h => hm (h ▸ List.mem_cons_self c rest)
      have hrest : m ∉ rest := fun h => hm (List.mem_cons_of_mem c h)
      simp only [emph2Go]
      rw [if_neg (by simp [hc])]
      rw [ih rest hrest]

/-- A scan for a marker that does not occur leaves the list unchanged. -/
theorem emph1Go_eq_self (m : Char) :
    ∀ (fuel : Nat) (s : List Char), m ∉ s → emph1Go m fuel s = s := by
  intro fuel
  induction fuel with
  | zero => intro s _; cases s <;> rfl
  | succ n ih =>
    intro s hm
    cases s with
    | nil => rfl
    | cons c rest =>
      have hc : c ≠ m := fun h => hm (h ▸ List.mem_cons_self c rest)
      have hrest : m ∉ rest := fun h => hm (List.mem_cons_of_mem c h)
      simp only [emph1Go]
      rw [if_neg hc, ih rest hrest]

/-- The heading scan on a hash-free list is the identity. -/
theorem stripHGo_eq_self :
    ∀ (fuel : Nat) (b : Bool) (s : List Char), '#' ∉ s →
      stripHGo fuel b s = s := by
  intro fuel
  induction fuel with
  | zero => intro b s _; cases s <;> rfl
  | succ n ih =>
    intro b s hm
    cases s with
    | nil => rfl
    | cons c rest =>
      have hc : c ≠ '#' := fun h => hm (h ▸ List.mem_cons_self c rest)
      have hrest : '#' ∉ rest := fun h => hm (List.mem_cons_of_mem c h)
      simp only [stripHGo]
      rw [if_neg (by simp [hc])]
      rw [ih _ rest hrest]

/-- Every character of an emitted newline run is a newline. -/
theorem mem_emitNl {c : Char} {k : Nat} (h : c ∈ emitNl k) : c = '\n' := by
  simp only [emitNl] at h
  split at h
  · simpa using h
  · exact List.eq_of_mem_replicate h

/-- Characters of the collapsed list: a newline or a character of the
input. -/
theorem mem_collapseGo :
    ∀ (s : List Char) (k : Nat) (c : Char), c ∈ collapseGo k s →
      c = '\n' ∨ c ∈ s := by
  intro s
  induction s with
  | nil =>
    intro k c hc
    exact Or.inl (mem_emitNl hc)
  | cons d rest ih =>
    intro k c hc
    simp only [collapseGo] at hc
    split at hc
    · rcases ih _ _ hc with h | h
      · exact Or.inl h
      · exact Or.inr (List.mem_cons_of_mem d h)
    · rcases List.mem_append.mp hc with h | h
      · exact Or.inl (mem_emitNl h)
      · rcases List.mem_cons.mp h with h | h
        · exact Or.inr (h ▸ List.mem_cons_self d rest)
        · rcases ih _ _ h with h' | h'
          · exact Or.inl h'
          · exact Or.inr (List.mem_cons_of_mem d h')

/-- trimRight keeps a leading part of its input. -/
theorem trimRight_eq_append :
    ∀ s : List Char, ∃ t, s = trimRight s ++ t := by
  intro s
  induction s with
  | nil => exact ⟨[], rfl⟩
  | cons c rest ih =>
    obtain ⟨t, ht⟩ := ih
    simp only [trimRight]
    split
    · exact ⟨c :: rest, rfl⟩
    · exact ⟨t, by simpa using ht⟩

/-- Characters of trimRight come from the input. -/
theorem mem_trimRight {c : Char} {s : List Char} (h : c ∈ trimRight s) :
    c ∈ s := by
  obtain ⟨t, ht⟩ := trimRight_eq_append s
  rw [ht]
  exact List.mem_append.mpr (Or.inl h)

/-- Characters of jsTrim come from the input. -/
theorem mem_jsTrim {c : Char} {s : List Char} (h : c ∈ jsTrim s) : c ∈ s :=
  (List.dropWhile_sublist isJsSpace (l := s)).mem (mem_trimRight h)

/-- Unfolding of the triple-newline test at a cons cell. -/
theorem hasTriple_cons (c : Char) (t : List Char) :
    hasTriple (c :: t) =
      if c = '\n' ∧ t.take 2 = ['\n', '\n'] then true else hasTriple t := rfl

/-- A triple-free list stays triple-free after dropping its head. -/
theorem hasTriple_tail {c : Char} {t : List Char}
    (h : hasTriple (c :: t) = false) : hasTriple t = false := by
  rw [hasTriple_cons] at h
  split at h
  · exact absurd h (by simp)
  · exact h

/-- The triple-newline test ignores a non-newline head. -/
theorem hasTriple_cons_ne {c : Char} (t : List Char) (hc : c ≠ '\n') :
    hasTriple (c :: t) = hasTriple t := by
  rw [hasTriple_cons, if_neg (by simp [hc])]

/-- A run of at most two newlines before a non-newline head does not
create a triple. -/
theorem hasTriple_short_run {j : Nat} (hj : j ≤ 2) {c : Char}
    (hc : c ≠ '\n') (t : List Char) :
    hasTriple (List.replicate j '\n' ++ c :: t) = hasTriple (c :: t) := by
  interval_cases j
  · rfl
  · rw [List.replicate_one, List.singleton_append, hasTriple_cons,
      if_neg (by cases t <;> simp [hc])]
  · show hasTriple ('\n' :: '\n' :: c :: t) = _
    rw [hasTriple_cons, if_neg (by simp [hc]), hasTriple_cons,
      if_neg (by cases t <;> simp [hc])]

/-- A run of at most two newlines alone has no triple. -/
theorem hasTriple_short_run_nil {j : Nat} (hj : j ≤ 2) :
    hasTriple (List.replicate j '\n') = false := by
  interval_cases j <;> decide

/-- The emitted run for a pending count is a run of at most two
newlines. -/
theorem emitNl_eq_replicate (k : Nat) :
    ∃ j ≤ 2, emitNl k = List.replicate j '\n' := by
  unfold emitNl
  split
  · exact ⟨2, by omega, rfl⟩
  · exact ⟨k, by omega, rfl⟩

/-- The head of the collapsed list is determined: for an input not
starting with a newline, the collapse of the tail starts like the
input. -/
theorem collapseGo_zero_head (c : Char) (hc : c ≠ '\n') (t : List Char) :
    collapseGo 0 (c :: t) = c :: collapseGo 0 t := by
  simp only [collapseGo, if_neg hc]
  rfl

/-- The collapsed output never contains three consecutive newlines. -/
theorem hasTriple_collapseGo :
    ∀ (s : List Char) (k : Nat), hasTriple (collapseGo k s) = false := by
  intro s
  induction s with
  | nil =>
    intro k
    obtain ⟨j, hj, hrep⟩ := emitNl_eq_replicate k
    show hasTriple (emitNl k) = false
    rw [hrep]
    exact hasTriple_short_run_nil hj
  | cons c rest ih =>
    intro k
    simp only [collapseGo]
    split
    · exact ih _
    · obtain ⟨j, hj, hrep⟩ := emitNl_eq_replicate k
      rw [hrep]
      have hc : c ≠ '\n' := by assumption
      rw [hasTriple_short_run hj hc, hasTriple_cons_ne _ hc]
      exact ih 0

/-- A triple-free concatenation has a triple-free left part. -/
theorem hasTriple_append_left :
    ∀ (a b : List Char), hasTriple (a ++ b) = false → hasTriple a = false := by
  intro a
  induction a with
  | nil => intro b _; rfl
  | cons c rest ih =>
    intro b h
    rw [List.cons_append, hasTriple_cons] at h
    rw [hasTriple_cons]
    split at h
    · exact absurd h (by simp)
    · rename_i hcond
      split
      · rename_i hcond2
        exfalso
        apply hcond
        refine ⟨hcond2.1, ?_⟩
        have h2 := hcond2.2
        have : rest.length ≥ 2 := by
          by_contra hlen
          interval_cases hr : rest.length
          · rw [List.length_eq_zero] at hr
            simp [hr] at h2
          · obtain ⟨x, hx⟩ := List.length_eq_one.mp hr
            simp [hx] at h2
        rw [List.take_append_of_le_length this, h2]
      · exact ih b h

/-- A triple-free list stays triple-free after dropWhile. -/
theorem hasTriple_dropWhile (p : Char → Bool) :
    ∀ s : List Char, hasTriple s = false →
      hasTriple (s.dropWhile p) = false := by
  intro s
  induction s with
  | nil => intro h; exact h
  | cons c rest ih =>
    intro h
    rw [List.dropWhile_cons]
    split
    · exact ih (hasTriple_tail h)
    · exact h

/-- A triple-free list stays triple-free after trimRight. -/
theorem hasTriple_trimRight {s : List Char} (h : hasTriple s = false) :
    hasTriple (trimRight s) = false := by
  obtain ⟨t, ht⟩ := trimRight_eq_append s
  exact hasTriple_append_left _ t (ht ▸ h)

/-- A triple-free list stays triple-free after jsTrim. -/
theorem hasTriple_jsTrim {s : List Char} (h : hasTriple s = false) :
    hasTriple (jsTrim s) = false :=
  hasTriple_trimRight (hasTriple_dropWhile _ s h)

/-- Leading newlines of the input are absorbed into the pending count. -/
theorem collapseGo_replicate (j : Nat) :
    ∀ (k : Nat) (x : List Char),
      collapseGo k (List.replicate j '\n' ++ x) = collapseGo (k + j) x := by
  induction j with
  | zero => intro k x; simp
  | succ n ih =>
    intro k x
    rw [List.replicate_succ, List.cons_append]
    show collapseGo (k + 1) _ = _
    rw [ih (k + 1) x]
    congr 1
    omega

/-- On an input that does not start with a newline, the pending run is
emitted and the scan restarts at count zero. -/
theorem collapseGo_flush (k : Nat) :
    ∀ x : List Char, x.head? ≠ some '\n' →
      collapseGo k x = emitNl k ++ collapseGo 0 x := by
  intro x hx
  cases x with
  | nil => simp [collapseGo, emitNl]
  | cons c rest =>
    have hc : c ≠ '\n' := by simpa using hx
    simp only [collapseGo, if_neg hc]
    simp [emitNl]

/-- The leading-newline decomposition of a list. -/
theorem leading_newline_split (s : List Char) :
    s = List.replicate (s.takeWhile (· = '\n')).length '\n'
        ++ s.dropWhile (· = '\n') := by
  conv_lhs => rw [← List.takeWhile_append_dropWhile (p := (· = '\n')) (l := s)]
  congr 1
  apply List.eq_replicate_of_mem
  intro b hb
  have := List.mem_takeWhile_imp hb
  simpa using this

/-- The head of the dropWhile remainder fails the test. -/
theorem head_dropWhile_ne (p : Char → Bool) :
    ∀ (s : List Char) (c : Char), (s.dropWhile p).head? = some c →
      p c = false := by
  intro s
  induction s with
  | nil => intro c h; simp at h
  | cons d rest ih =>
    intro c h
    rw [List.dropWhile_cons] at h
    split at h
    · exact ih c h
    · rename_i hd
      simp only [List.head?_cons, Option.some_inj] at h
      subst h
      simpa using hd

/-- Collapsing a triple-free list is the identity. -/
theorem collapseGo_eq_self :
    ∀ (n : Nat) (t : List Char), t.length ≤ n → hasTriple t = false →
      collapseGo 0 t = t := by
  intro n
  induction n with
  | zero =>
    intro t hlen _
    rw [List.length_eq_zero.mp (Nat.le_zero.mp hlen)]
    rfl
  | succ n ih =>
    intro t hlen htrip
    cases t with
    | nil => rfl
    | cons c rest =>
      have hrestlen : rest.length ≤ n := by
        simp only [List.length_cons] at hlen
        omega
      by_cases hc : c = '\n'
      · subst hc
        have hsplit := leading_newline_split rest
        set j := (rest.takeWhile (· = '\n')).length with hj
        set r := rest.dropWhile (· = '\n') with hr
        have hrhead : r.head? ≠ some '\n' := by
          intro hcontra
          have := head_dropWhile_ne _ rest _ hcontra
          simp at this
        have hjle : j ≤ 1 := by
          by_contra hgt
          push_neg at hgt
          have h2 : rest.take 2 = ['\n', '\n'] := by
            rw [hsplit]
            rw [List.take_append_of_le_length (by simpa using hgt)]
            rw [List.take_replicate]
            have hmin : min 2 j = 2 := by omega
            rw [hmin]
            rfl
          rw [hasTriple_cons] at htrip
          rw [if_pos ⟨rfl, h2⟩] at htrip
          exact absurd htrip (by simp)
        have hrlen : r.length ≤ n := by
          have h2 : r.length ≤ rest.length :=
            (List.dropWhile_sublist _).length_le
          omega
        have hrtrip : hasTriple r = false :=
          hasTriple_dropWhile _ rest (hasTriple_tail htrip)
        have hstep : collapseGo 0 ('\n' :: rest) = collapseGo 1 rest := by
          simp [collapseGo]
        rw [hstep, hsplit, collapseGo_replicate, collapseGo_flush _ _ hrhead,
          ih r hrlen hrtrip]
        have hemit : emitNl (1 + j) = List.replicate (1 + j) '\n' := by
          unfold emitNl
          rw [if_neg (by omega)]
        rw [hemit, show (1 + j) = j + 1 by omega, List.replicate_succ,
          List.cons_append]
      · rw [collapseGo_zero_head c hc]
        rw [ih rest hrestlen (hasTriple_tail htrip)]

/-- Collapsing a triple-free list is the identity. -/
theorem collapseNl_eq_self {t : List Char} (h : hasTriple t = false) :
    collapseNl t = t :=
  collapseGo_eq_self t.length t (Nat.le_refl _) h

/-- dropWhile is idempotent. -/
theorem dropWhile_idem (p : Char → Bool) :
    ∀ s : List Char, (s.dropWhile p).dropWhile p = s.dropWhile p := by
  intro s
  induction s with
  | nil => rfl
  | cons c rest ih =>
    rw [List.dropWhile_cons]
    split
    · exact ih
    · rw [List.dropWhile_cons_of_neg (by assumption)]

/-- trimRight is idempotent. -/
theorem trimRight_idem : ∀ s : List Char, trimRight (trimRight s) = trimRight s := by
  intro s
  induction s with
  | nil => rfl
  | cons c rest ih =>
    show trimRight (trimRight (c :: rest)) = _
    rw [trimRight]
    split
    · rfl
    · rename_i hcond
      rw [trimRight]
      simp only [ih]
      rw [if_neg hcond]

/-- The head of trimRight is the head of its input. -/
theorem head_trimRight {s : List Char} {c : Char}
    (h : (trimRight s).head? = some c) : s.head? = some c := by
  cases s with
  | nil => simp [trimRight] at h
  | cons d rest =>
    rw [trimRight] at h
    split at h
    · simp at h
    · simp only [List.head?_cons, Option.some_inj] at h ⊢
      exact h

/-- On a list with no emphasis or heading markers, the sanitizer is the
newline collapse followed by the trim. -/
theorem cleanText_eq_of_marker_free {s : List Char}
    (hstar : '*' ∉ s) (hhash : '#' ∉ s) (hund : '_' ∉ s) :
    cleanText s = jsTrim (collapseNl s) := by
  unfold cleanText
  split
  · rename_i hnil
    subst hnil
    rfl
  · unfold emph2 emph1 stripHeadings
    rw [emph2Go_eq_self _ _ _ hstar, emph1Go_eq_self _ _ _ hstar,
      stripHGo_eq_self _ _ _ hhash, emph2Go_eq_self _ _ _ hund,
      emph1Go_eq_self _ _ _ hund]

/-- The trimmed collapse of a marker-free list is still marker-free. -/
theorem marker_free_jsTrim_collapseNl {m : Char} (hm : m ≠ '\n')
    {s : List Char} (hs : m ∉ s) : m ∉ jsTrim (collapseNl s) := by
  intro hmem
  rcases mem_collapseGo s 0 m (mem_jsTrim hmem) with h | h
  · exact hm h
  · exact hs h

/-- jsTrim is idempotent. -/
theorem jsTrim_idem (s : List Char) : jsTrim (jsTrim s) = jsTrim s := by
  unfold jsTrim
  have hdw : (trimRight (s.dropWhile isJsSpace)).dropWhile isJsSpace
      = trimRight (s.dropWhile isJsSpace) := by
    cases hh : (trimRight (s.dropWhile isJsSpace)).head? with
    | none =>
      rw [List.head?_eq_none_iff.mp hh]
      rfl
    | some c =>
      have hc : isJsSpace c = false :=
        head_dropWhile_ne _ s c (head_trimRight hh)
      cases he : trimRight (s.dropWhile isJsSpace) with
      | nil => rfl
      | cons d t =>
        rw [he] at hh
        simp only [List.head?_cons, Option.some_inj] at hh
        subst hh
        rw [List.dropWhile_cons_of_neg (by simp [hc])]
  rw [hdw, trimRight_idem]

/-- A character that is not whitespace is not a newline. -/
theorem cleanChar_ne_newline {c : Char} (h : cleanChar c) : c ≠ '\n' := by
  intro hc
  subst hc
  exact absurd h.2.2.2 (by decide)

/-- A list with no newline has no newline triple. -/
theorem hasTriple_of_no_newline :
    ∀ l : List Char, (∀ c ∈ l, c ≠ '\n') → hasTriple l = false := by
  intro l
  induction l with
  | nil => intro _; rfl
  | cons c rest ih =>
    intro h
    rw [hasTriple_cons_ne _ (h c (List.mem_cons_self c rest))]
    exact ih fun d hd => h d (List.mem_cons_of_mem c hd)

/-- The collapse scan passes over newline-free text unchanged. -/
theorem collapseGo_append_of_no_newline :
    ∀ (a x : List Char), (∀ c ∈ a, c ≠ '\n') →
      collapseGo 0 (a ++ x) = a ++ collapseGo 0 x := by
  intro a
  induction a with
  | nil => intro x _; rfl
  | cons c rest ih =>
    intro x h
    rw [List.cons_append,
      collapseGo_zero_head c (h c (List.mem_cons_self c rest)),
      ih x fun d hd => h d (List.mem_cons_of_mem c hd), List.cons_append]

/-- trimRight does not touch a list whose last character is not
whitespace. -/
theorem trimRight_eq_self_of_getLast :
    ∀ (l : List Char) (c : Char), l.getLast? = some c →
      isJsSpace c = false → trimRight l = l := by
  intro l
  induction l with
  | nil => intro c h _; simp at h
  | cons d rest ih =>
    intro c h hsp
    cases rest with
    | nil =>
      have hd : d = c := by simpa using h
      rw [trimRight]
      rw [if_neg (by simp [hd, hsp])]
      rfl
    | cons e rest' =>
      rw [List.getLast?_cons_cons] at h
      have hr := ih c h hsp
      rw [trimRight]
      simp only [hr]
      rw [if_neg (by simp)]

/-! ## Sanitizer claims -/

/-- Claim C1, counterexample: the sanitizer is not idempotent as the
specification states.  On the string underscore-hash-a-underscore, the
first application removes the underscore emphasis and exposes a heading
marker at a line start (the heading pass has already run), so the
second application removes more. -/
theorem clean_not_idempotent_on_underscored_heading :
    cleanText (cleanText "_#a_".data) ≠ cleanText "_#a_".data ∧
      cleanText "_#a_".data = "#a".data ∧
      cleanText (cleanText "_#a_".data) = "a".data := by
  refine ⟨?_, by decide, by decide⟩
  decide

/-- Claim C1, amended: the sanitizer is idempotent on every string that
contains no emphasis or heading marker (no star, hash or underscore).
For such strings the run collapses newline runs and trims, and both of
those stabilize after one application. -/
theorem clean_idempotent_on_marker_free (s : List Char)
    (hstar : '*' ∉ s) (hhash : '#' ∉ s) (hund : '_' ∉ s) :
    cleanText (cleanText s) = cleanText s := by
  rw [cleanText_eq_of_marker_free hstar hhash hund]
  have h1 : '*' ∉ jsTrim (collapseNl s) :=
    marker_free_jsTrim_collapseNl (by decide) hstar
  have h2 : '#' ∉ jsTrim (collapseNl s) :=
    marker_free_jsTrim_collapseNl (by decide) hhash
  have h3 : '_' ∉ jsTrim (collapseNl s) :=
    marker_free_jsTrim_collapseNl (by decide) hund
  rw [cleanText_eq_of_marker_free h1 h2 h3]
  have htrip : hasTriple (jsTrim (collapseNl s)) = false :=
    hasTriple_jsTrim (hasTriple_collapseGo s 0)
  rw [collapseNl_eq_self htrip, jsTrim_idem]

/-- Witness for the amended claim C1 at a concrete marker-free string. -/
theorem clean_idempotent_on_marker_free_witness :
    ('*' ∉ "The dragon keeps watch.\n\nIt never sleeps.".data ∧
     '#' ∉ "The dragon keeps watch.\n\nIt never sleeps.".data ∧
     '_' ∉ "The dragon keeps watch.\n\nIt never sleeps.".data) ∧
    cleanText (cleanText "The dragon keeps watch.\n\nIt never sleeps.".data)
      = cleanText "The dragon keeps watch.\n\nIt never sleeps.".data :=
  ⟨by decide,
   clean_idempotent_on_marker_free _ (by decide) (by decide) (by decide)⟩

/-- Claim C9, counterexample: a run of four newlines is not always
replaced by exactly two newlines in the output.  At the end of the
string the collapsed pair is then removed entirely by the final trim:
the input consisting of the letter a followed by four newlines cleans
to just the letter a, and the output contains no newline at all. -/
theorem clean_four_newlines_trimmed_away :
    "a\n\n\n\n".data = 'a' :: List.replicate 4 '\n' ∧
      cleanText "a\n\n\n\n".data = ['a'] ∧
      '\n' ∉ (['a'] : List Char) := by
  refine ⟨by decide, ?_, by decide⟩
  decide

/-- Claim C9, amended: an interior run of four newlines, surrounded on
both sides by nonempty text made of non-whitespace non-marker
characters, becomes exactly two newlines in the output. -/
theorem clean_interior_four_newlines (a b : List Char)
    (ha : a ≠ []) (hb : b ≠ [])
    (hca : ∀ c ∈ a, cleanChar c) (hcb : ∀ c ∈ b, cleanChar c) :
    cleanText (a ++ List.replicate 4 '\n' ++ b)
      = a ++ List.replicate 2 '\n' ++ b := by
  have hmem : ∀ m : Char, m ≠ '\n' →
      ((∀ c ∈ a, c ≠ m) → (∀ c ∈ b, c ≠ m) →
        m ∉ a ++ List.replicate 4 '\n' ++ b) := by
    intro m hm h1 h2 hin
    rw [List.append_assoc, List.mem_append, List.mem_append] at hin
    rcases hin with h | h | h
    · exact h1 m h rfl
    · exact hm (List.eq_of_mem_replicate h)
    · exact h2 m h rfl
  have hstar : '*' ∉ a ++ List.replicate 4 '\n' ++ b :=
    hmem '*' (by decide) (fun c hc he => (hca c hc).1 he)
      (fun c hc he => (hcb c hc).1 he)
  have hhash : '#' ∉ a ++ List.replicate 4 '\n' ++ b :=
    hmem '#' (by decide) (fun c hc he => (hca c hc).2.1 he)
      (fun c hc he => (hcb c hc).2.1 he)
  have hund : '_' ∉ a ++ List.replicate 4 '\n' ++ b :=
    hmem '_' (by decide) (fun c hc he => (hca c hc).2.2.1 he)
      (fun c hc he => (hcb c hc).2.2.1 he)
  rw [cleanText_eq_of_marker_free hstar hhash hund]
  have hanl : ∀ c ∈ a, c ≠ '\n' := fun c hc => cleanChar_ne_newline (hca c hc)
  have hbnl : ∀ c ∈ b, c ≠ '\n' := fun c hc => cleanChar_ne_newline (hcb c hc)
  have hbhead : b.head? ≠ some '\n' := by
    cases b with
    | nil => simp
    | cons c rest =>
      intro hcon
      exact hbnl c (List.mem_cons_self c rest) (by simpa using hcon)
  have hcollapse : collapseNl (a ++ List.replicate 4 '\n' ++ b)
      = a ++ List.replicate 2 '\n' ++ b := by
    show collapseGo 0 _ = _
    rw [List.append_assoc, collapseGo_append_of_no_newline a _ hanl,
      collapseGo_replicate, collapseGo_flush _ _ hbhead,
      collapseGo_eq_self b.length b (Nat.le_refl _)
        (hasTriple_of_no_newline b hbnl)]
    rw [List.append_assoc]
    rfl
  rw [hcollapse]
  cases a with
  | nil => exact absurd rfl ha
  | cons c a' =>
    have hcsp : isJsSpace c = false :=
      (hca c (List.mem_cons_self c a')).2.2.2
    unfold jsTrim
    rw [List.cons_append, List.cons_append,
      List.dropWhile_cons_of_neg (by simp [hcsp]), ← List.cons_append,
      ← List.cons_append]
    apply trimRight_eq_self_of_getLast _ (b.getLast hb)
    · rw [List.getLast?_append, List.getLast?_eq_getLast b hb]
      · simp
    · exact (hcb _ (List.getLast_mem hb)).2.2.2

/-- Witness for the amended claim C9 at a concrete interior run. -/
theorem clean_interior_four_newlines_witness :
    "a\n\n\n\nb".data = ['a'] ++ List.replicate 4 '\n' ++ ['b'] ∧
      cleanText (['a'] ++ List.replicate 4 '\n' ++ ['b'])
        = ['a'] ++ List.replicate 2 '\n' ++ ['b'] :=
  ⟨by decide,
   clean_interior_four_newlines ['a'] ['b'] (by decide) (by decide)
     (by decide) (by decide)⟩

/-- Claim C10: for every input, the sanitizer output never contains
three consecutive newline characters: the newline-collapsing pass
leaves no such run and the final trim cannot create one. -/
theorem clean_output_never_has_triple_newline (s : List Char) :
    hasTriple (cleanText s) = false := by
  unfold cleanText
  split
  · rfl
  · exact hasTriple_jsTrim (hasTriple_collapseGo _ 0)

/-! ## Helper lemmas about the image client -/

/-- The description fallback always succeeds and always yields the
description variant with the truncated prompt echo. -/
theorem generateImageDescription_shape (env : Env) (prompt type_ : String) :
    ∃ txt, generateImageDescription env prompt type_ =
      .ok (.description type_ txt (jsSubstring prompt 200 ++ "...")) := by
  unfold generateImageDescription
  cases hgen : generateText env (descriptionPrompt prompt) none with
  | error e => exact ⟨_, rfl⟩
  | ok v => cases v <;> exact ⟨_, rfl⟩

/-- The image client always succeeds. -/
theorem generateImageWithFallback_ok (env : Env) (prompt type_ : String) :
    ∃ r, generateImageWithFallback env prompt type_ = .ok r := by
  unfold generateImageWithFallback
  split
  · obtain ⟨txt, h⟩ := generateImageDescription_shape env prompt type_
    exact ⟨_, h⟩
  · cases himg : env.imageOutcome prompt with
    | ok bytes =>
      cases bytes with
      | some b => exact ⟨_, rfl⟩
      | none =>
        obtain ⟨txt, h⟩ := generateImageDescription_shape env prompt type_
        exact ⟨_, h⟩
    | badStatus code t =>
      obtain ⟨txt, h⟩ := generateImageDescription_shape env prompt type_
      exact ⟨_, h⟩
    | netError m =>
      obtain ⟨txt, h⟩ := generateImageDescription_shape env prompt type_
      exact ⟨_, h⟩

/-- Whenever the image client yields the description variant, the echo
field is the 200-character truncation of the prompt with the three-dot
suffix. -/
theorem generateImageWithFallback_echo (env : Env)
    (prompt type_ ty txt echo : String)
    (h : generateImageWithFallback env prompt type_
      = .ok (.description ty txt echo)) :
    echo = jsSubstring prompt 200 ++ "..." := by
  have hdesc : ∀ (hd : generateImageDescription env prompt type_
      = .ok (.description ty txt echo)), echo = jsSubstring prompt 200 ++ "..." := by
    intro hd
    obtain ⟨txt', h'⟩ := generateImageDescription_shape env prompt type_
    rw [hd] at h'
    cases h'
    rfl
  unfold generateImageWithFallback at h
  split at h
  · exact hdesc h
  · cases himg : env.imageOutcome prompt with
    | ok bytes =>
      cases bytes with
      | some b => rw [himg] at h; cases h
      | none => rw [himg] at h; exact hdesc h
    | badStatus code t => rw [himg] at h; exact hdesc h
    | netError m => rw [himg] at h; exact hdesc h

/-! ## Image client claims -/

/-- Claim C2: for every environment (missing credential, network
failure, bad status, or a payload without image bytes) and every
prompt, the image client returns an ImageResult, one of the two
variants, and never propagates an error. -/
theorem image_client_never_fails (env : Env) (prompt type_ : String) :
    ∃ r, generateImageWithFallback env prompt type_ = .ok r ∧
      (r.isImage = true ∨ r.isDescription = true) := by
  obtain ⟨r, hr⟩ := generateImageWithFallback_ok env prompt type_
  refine ⟨r, hr, ?_⟩
  cases r
  · exact Or.inl rfl
  · exact Or.inr rfl

/-- Claim C3: a schema-constrained generation whose payload does not
parse as JSON returns the raw text unchanged as plain text, without
raising. -/
theorem generate_with_schema_parse_failure (env : Env)
    (prompt content : String) (schema : JsValue)
    (hok : env.textOutcome prompt = .ok content)
    (hparse : env.jsonParse content = none) :
    generateText env prompt (some schema) = .ok (.jstr content) := by
  simp [generateText, hok, hparse]

/-- Witness for claim C3 on a concrete environment whose payload never
parses. -/
theorem generate_with_schema_parse_failure_witness :
    (envBadJson.textOutcome "p" = .ok "not json" ∧
     envBadJson.jsonParse "not json" = none) ∧
    generateText envBadJson "p" (some ideasSchema) = .ok (.jstr "not json") :=
  ⟨⟨rfl, rfl⟩,
   generate_with_schema_parse_failure envBadJson "p" "not json" ideasSchema
     rfl rfl⟩

/-- Claim C8, counterexample: the truncated prompt echo is not exactly
the first 200 characters of the prompt: the source appends a three-dot
suffix (and a short prompt is echoed whole).  With no credential and a
working text endpoint, prompt abc is echoed as abc followed by three
dots. -/
theorem image_fallback_echo_not_exact :
    generateImageWithFallback envNoKey "abc" "concept"
      = .ok (.description "concept" "d" "abc...") ∧
      "abc..." ≠ jsSubstring "abc" 200 := by
  constructor
  · rfl
  · decide

/-- Claim C8, amended: whenever the image client falls back to the
description variant, the truncated prompt echo is the first 200
characters of the original prompt followed by the three-dot suffix. -/
theorem image_fallback_echo_truncation (env : Env)
    (prompt type_ ty txt echo : String)
    (h : generateImageWithFallback env prompt type_
      = .ok (.description ty txt echo)) :
    echo = jsSubstring prompt 200 ++ "..." :=
  generateImageWithFallback_echo env prompt type_ ty txt echo h

/-- Witness for the amended claim C8 at a concrete environment and
prompt. -/
theorem image_fallback_echo_truncation_witness :
    (generateImageWithFallback envNoKey "abc" "concept"
      = .ok (.description "concept" "d" "abc...")) ∧
    "abc..." = jsSubstring "abc" 200 ++ "..." :=
  ⟨rfl,
   image_fallback_echo_truncation envNoKey "abc" "concept" "concept" "d"
     "abc..." rfl⟩

/-! ## Helper lemmas about the orchestrator -/

/-- The character-visuals loop never fails and is index-aligned: the
produced visual sequence is, slot by slot, the image-client result of
the prompt built from the character record at the same position. -/
theorem charLoop_ok (env : Env) (wt : String) :
    ∀ (chars : List JsValue) (i : Nat) (acc : List ImageResult)
      (ps : ProgressState),
      ∃ ps' res, charLoop env wt chars i acc ps = (ps', .ok res) ∧
        res.map (Except.ok : ImageResult → Except String ImageResult)
          = acc.map Except.ok ++ chars.map (fun ch =>
              generateImageWithFallback env
                (createCharacterImagePrompt ch wt) "character") := by
  intro chars
  induction chars with
  | nil =>
    intro i acc ps
    exact ⟨ps, acc, rfl, by simp [charLoop]⟩
  | cons ch rest ih =>
    intro i acc ps
    obtain ⟨r, hr⟩ := generateImageWithFallback_ok env
      (createCharacterImagePrompt ch wt) "character"
    obtain ⟨ps', res, heq, hmap⟩ :=
      ih (i + 1) (acc ++ [r]) ((ps.setChar i ⟨true, false, false⟩).setChar i
        ⟨false, true, !r.isImage⟩)
    refine ⟨ps', res, ?_, ?_⟩
    · simp only [charLoop, hr]
      exact heq
    · rw [hmap]
      simp only [List.map_append, List.map_cons, List.map_nil, hr,
        List.append_assoc, List.singleton_append]

/-- The scenario loop never fails and produces one visual per index. -/
theorem scenLoop_ok (env : Env) (ui wt : String) :
    ∀ (idxs : List Nat) (acc : List ImageResult) (ps : ProgressState),
      ∃ ps' res, scenLoop env ui wt idxs acc ps = (ps', .ok res) ∧
        res.length = acc.length + idxs.length := by
  intro idxs
  induction idxs with
  | nil =>
    intro acc ps
    exact ⟨ps, acc, rfl, by simp [scenLoop]⟩
  | cons i rest ih =>
    intro acc ps
    obtain ⟨r, hr⟩ := generateImageWithFallback_ok env
      (createScenarioImagePrompt i ui wt) "scenario"
    obtain ⟨ps', res, heq, hlen⟩ :=
      ih (acc ++ [r]) ((ps.setScenario i ⟨true, false, false⟩).setScenario i
        ⟨false, true, !r.isImage⟩)
    refine ⟨ps', res, ?_, ?_⟩
    · simp only [scenLoop, hr]
      exact heq
    · simp only [List.length_append, List.length_cons,
        List.length_nil] at hlen ⊢
      omega

/-- The scenario phase leaves the character visuals unchanged. -/
theorem scenarioPhase_characterVisuals (env : Env) (wd : WorldData)
    (ps : ProgressState) :
    (scenarioPhase env wd ps).1.characterVisuals = wd.characterVisuals := by
  obtain ⟨ps', svs, heq, _⟩ := scenLoop_ok env wd.userIdea wd.worldType
    [0, 1, 2] [] ps
  unfold scenarioPhase
  rw [heq]

/-- The scenario phase leaves the character records unchanged. -/
theorem scenarioPhase_characterConcepts (env : Env) (wd : WorldData)
    (ps : ProgressState) :
    (scenarioPhase env wd ps).1.characterConcepts = wd.characterConcepts := by
  obtain ⟨ps', svs, heq, _⟩ := scenLoop_ok env wd.userIdea wd.worldType
    [0, 1, 2] [] ps
  unfold scenarioPhase
  rw [heq]

/-- The scenario phase always installs exactly three scenario visuals. -/
theorem scenarioPhase_scenarioVisuals (env : Env) (wd : WorldData)
    (ps : ProgressState) :
    (scenarioPhase env wd ps).1.scenarioVisuals.length = 3 := by
  obtain ⟨ps', svs, heq, hlen⟩ := scenLoop_ok env wd.userIdea wd.worldType
    [0, 1, 2] [] ps
  unfold scenarioPhase
  rw [heq]
  simpa using hlen

/-- The scenario phase leaves the world type unchanged. -/
theorem scenarioPhase_worldType (env : Env) (wd : WorldData)
    (ps : ProgressState) :
    (scenarioPhase env wd ps).1.worldType = wd.worldType := by
  obtain ⟨ps', svs, heq, _⟩ := scenLoop_ok env wd.userIdea wd.worldType
    [0, 1, 2] [] ps
  unfold scenarioPhase
  rw [heq]

/-- The visual phase never fails; on an aggregate with empty character
visuals it yields one character visual per character record (up to
six) with the visual sequence index-aligned to the record sequence,
exactly three scenario visuals, and keeps the character records and
the world type. -/
theorem generateAllVisualContent_counts (env : Env) (wd : WorldData)
    (ps : ProgressState) (hempty : wd.characterVisuals = []) :
    (generateAllVisualContent env wd ps).1.characterVisuals.length
        = min wd.characterConcepts.length 6 ∧
      (generateAllVisualContent env wd ps).1.scenarioVisuals.length = 3 ∧
      (generateAllVisualContent env wd ps).1.characterConcepts
        = wd.characterConcepts ∧
      (generateAllVisualContent env wd ps).1.worldType = wd.worldType ∧
      (generateAllVisualContent env wd ps).1.characterVisuals.map
          (Except.ok : ImageResult → Except String ImageResult)
        = (wd.characterConcepts.take 6).map (fun ch =>
            generateImageWithFallback env
              (createCharacterImagePrompt ch wd.worldType) "character") := by
  obtain ⟨cr, hcr⟩ := generateImageWithFallback_ok env
    (createWorldImagePrompt wd.userIdea wd.worldType) "concept"
  unfold generateAllVisualContent
  rw [hcr]
  have main : ∀ (wd1 : WorldData) (out : WorldData × ProgressState),
      wd1.characterVisuals = wd.characterVisuals →
      wd1.characterConcepts = wd.characterConcepts →
      wd1.worldType = wd.worldType →
      out = (if 0 < wd.characterConcepts.length then
          match charLoop env wd.worldType (wd.characterConcepts.take 6) 0 []
            { ps with concept := ⟨false, true, !cr.isImage⟩ } with
          | (ps3, .error _) => (wd1, ps3)
          | (ps3, .ok cvs) =>
            scenarioPhase env { wd1 with characterVisuals := cvs } ps3
        else
          scenarioPhase env wd1
            { ps with concept := ⟨false, true, !cr.isImage⟩ }) →
      out.1.characterVisuals.length = min wd.characterConcepts.length 6 ∧
      out.1.scenarioVisuals.length = 3 ∧
      out.1.characterConcepts = wd.characterConcepts ∧
      out.1.worldType = wd.worldType ∧
      out.1.characterVisuals.map
          (Except.ok : ImageResult → Except String ImageResult)
        = (wd.characterConcepts.take 6).map (fun ch =>
            generateImageWithFallback env
              (createCharacterImagePrompt ch wd.worldType) "character") := by
    intro wd1 out hv hc hw hout
    subst hout
    split
    · rename_i hpos
      obtain ⟨ps3, cvs, hloop, hmap⟩ := charLoop_ok env wd.worldType
        (wd.characterConcepts.take 6) 0 []
        { ps with concept := ⟨false, true, !cr.isImage⟩ }
      rw [hloop]
      simp only [List.map_nil, List.nil_append] at hmap
      have hlen : cvs.length = min 6 wd.characterConcepts.length := by
        have := congrArg List.length hmap
        simpa using this
      refine ⟨?_, scenarioPhase_scenarioVisuals _ _ _, ?_, ?_, ?_⟩
      · rw [scenarioPhase_characterVisuals]
        simp [hlen, Nat.min_comm]
      · rw [scenarioPhase_characterConcepts]
        simpa using hc
      · rw [scenarioPhase_worldType]
        simpa using hw
      · rw [scenarioPhase_characterVisuals]
        simpa using hmap
    · rename_i hneg
      have hzero : wd.characterConcepts = [] := by
        rw [← List.length_eq_zero]
        omega
      refine ⟨?_, scenarioPhase_scenarioVisuals _ _ _, ?_, ?_, ?_⟩
      · rw [scenarioPhase_characterVisuals, hv, hempty, hzero]
        simp
      · rw [scenarioPhase_characterConcepts, hc]
      · rw [scenarioPhase_worldType, hw]
      · rw [scenarioPhase_characterVisuals, hv, hempty, hzero]
        simp
  cases cr with
  | image t bytes =>
    simpa using main { wd with conceptImage := some bytes } _ rfl rfl rfl rfl
  | description t d e =>
    simpa using main
      { wd with conceptImageDescription := some (.description t d e) } _
      rfl rfl rfl rfl

/-! ## Orchestrator claims -/

/-- Claim C4, counterexample: with visuals enabled and a parsed
character list of length two, the returned aggregate holds exactly two
character visual slots, not six; the aggregate is never padded (only
the progress state and the document exporter use fixed lengths). -/
theorem buildWorld_two_characters_two_visual_slots :
    characterConceptsCount
        (generateWorldContent envTwoCharacters "i" "w" true).1 = 2 ∧
      characterVisualsCount
        (generateWorldContent envTwoCharacters "i" "w" true).1 = 2 ∧
      scenarioVisualsCount
        (generateWorldContent envTwoCharacters "i" "w" true).1 = 3 ∧
      (2 : Nat) ≠ 6 :=
  ⟨rfl, rfl, rfl, by decide⟩

/-- Claim C4, amended: with visuals enabled, a successfully returned
aggregate holds one character visual per character record up to six
(so two records give two visual slots) and exactly three scenario
visual slots, and the character visual sequence is index-aligned to
the character record sequence: the visual at each index is the
image-client result for the prompt built from the record at that
index. -/
theorem buildWorld_visual_counts (env : Env) (u w : String)
    (wd : WorldData) (ps : ProgressState)
    (h : generateWorldContent env u w true = (.ok wd, ps)) :
    wd.characterVisuals.length = min wd.characterConcepts.length 6 ∧
      wd.scenarioVisuals.length = 3 ∧
      wd.characterVisuals.map
          (Except.ok : ImageResult → Except String ImageResult)
        = (wd.characterConcepts.take 6).map (fun ch =>
            generateImageWithFallback env
              (createCharacterImagePrompt ch wd.worldType) "character") := by
  have hgen : ∀ wd0 : WorldData, wd0.characterVisuals = [] →
      ((fun p => ((Except.ok p.1 : Except String WorldData), p.2))
        (generateAllVisualContent env wd0 initialProgress)) = (.ok wd, ps) →
      wd.characterVisuals.length = min wd.characterConcepts.length 6 ∧
        wd.scenarioVisuals.length = 3 ∧
        wd.characterVisuals.map
            (Except.ok : ImageResult → Except String ImageResult)
          = (wd.characterConcepts.take 6).map (fun ch =>
              generateImageWithFallback env
                (createCharacterImagePrompt ch wd.worldType) "character") := by
    intro wd0 hv hpairs
    rcases hpair : generateAllVisualContent env wd0 initialProgress
      with ⟨wd', ps'⟩
    rw [hpair] at hpairs
    simp only [Prod.mk.injEq, Except.ok.injEq] at hpairs
    obtain ⟨hwd, hps⟩ := hpairs
    subst hwd
    have hcounts := generateAllVisualContent_counts env wd0 initialProgress hv
    rw [hpair] at hcounts
    simp only at hcounts
    obtain ⟨h1, h2, h3, h4, h5⟩ := hcounts
    refine ⟨by rw [h1, ← h3], h2, ?_⟩
    rw [h5, h3, h4]
  unfold generateWorldContent at h
  by_cases hk : env.apiKey = false
  · rw [if_pos hk] at h
    exact absurd h (by simp)
  · rw [if_neg hk] at h
    cases h1 : generateText env (narrativePrompt u w) none with
    | error e => simp only [h1] at h; exact absurd h (by simp)
    | ok v1 =>
      simp only [h1] at h
      cases h2 : generateText env (ideasPrompt u w) (some ideasSchema) with
      | error e => simp only [h2] at h; exact absurd h (by simp)
      | ok v2 =>
        simp only [h2] at h
        cases h3 : generateText env (customizationPrompt u w)
            (some customizationSchema) with
        | error e => simp only [h3] at h; exact absurd h (by simp)
        | ok v3 =>
          simp only [h3] at h
          cases h4 : generateText env (charactersPrompt u w)
              (some charactersSchema) with
          | error e => simp only [h4] at h; exact absurd h (by simp)
          | ok v4 =>
            simp only [h4] at h
            cases h5 : generateText env (mapsPrompt u w) none with
            | error e => simp only [h5] at h; exact absurd h (by simp)
            | ok v5 =>
              simp only [h5] at h
              rw [if_pos trivial] at h
              exact hgen _ rfl h

/-- Witness for the amended claim C4: in an environment whose two
character records are distinct and whose image endpoint echoes the
request prompt, the run yields two character visual slots carrying the
two distinct record prompts in record order (so alignment is
observable, not merely a count), plus three scenario visual slots. -/
theorem buildWorld_visual_counts_witness :
    (generateWorldContent envAlignedVisuals "i" "w" true
      = (.ok worldAlignedVisuals, progressTwoCharacters)) ∧
    createCharacterImagePrompt sampleCharacterRecord "w"
      ≠ createCharacterImagePrompt characterRecordB "w" ∧
    (worldAlignedVisuals.characterVisuals.length
        = min worldAlignedVisuals.characterConcepts.length 6 ∧
      worldAlignedVisuals.scenarioVisuals.length = 3 ∧
      worldAlignedVisuals.characterVisuals.map
          (Except.ok : ImageResult → Except String ImageResult)
        = (worldAlignedVisuals.characterConcepts.take 6).map (fun ch =>
            generateImageWithFallback envAlignedVisuals
              (createCharacterImagePrompt ch worldAlignedVisuals.worldType)
              "character")) :=
  ⟨rfl, by decide,
   buildWorld_visual_counts envAlignedVisuals "i" "w" worldAlignedVisuals
     progressTwoCharacters rfl⟩

/-- Claim C5: when the credential is present and the narrative
text-generation call fails, buildWorld rejects with that error, returns
no aggregate, and the progress state stays at the reset values set at
the start of the run (the visual phase, the only writer, is never
reached). -/
theorem buildWorld_narrative_failure (env : Env) (u w : String) (gv : Bool)
    (hkey : env.apiKey = true)
    (hfail : (env.textOutcome (narrativePrompt u w)).isFailure = true) :
    generateWorldContent env u w gv
      = (.error (failureMessage (env.textOutcome (narrativePrompt u w))),
         initialProgress) := by
  unfold generateWorldContent
  rw [if_neg (by simp [hkey])]
  cases houtcome : env.textOutcome (narrativePrompt u w) with
  | ok content =>
    rw [houtcome] at hfail
    exact absurd hfail (by simp [TextOutcome.isFailure])
  | netError msg => simp [generateText, houtcome, failureMessage]
  | badStatus code => simp [generateText, houtcome, failureMessage]
  | badShape => simp [generateText, houtcome, failureMessage]

/-- Witness for claim C5 at a concrete failing environment. -/
theorem buildWorld_narrative_failure_witness :
    (envTextDown.apiKey = true ∧
     (envTextDown.textOutcome (narrativePrompt "i" "w")).isFailure = true) ∧
    generateWorldContent envTextDown "i" "w" true
      = (.error (failureMessage
          (envTextDown.textOutcome (narrativePrompt "i" "w"))),
         initialProgress) :=
  ⟨⟨rfl, rfl⟩, buildWorld_narrative_failure envTextDown "i" "w" true rfl rfl⟩

/-! ## Exporter claims -/

/-- Claim C6: for every aggregate (0, 2, or 6-plus character records),
the exported document contains exactly six character cards (missing
characters are backfilled with placeholder records before rendering)
and exactly three scenario cards. -/
theorem export_six_character_three_scenario_cards (wd : WorldData)
    (today : String) :
    (exportWorldToPDF wd today).1.countP DocItem.isCharCard = 6 ∧
      (exportWorldToPDF wd today).1.countP DocItem.isScenarioCard = 3 := by
  have hpad : 6 ≤ (padCharacters wd.characterConcepts).length := by
    simp only [padCharacters, List.length_append, List.length_map,
      List.length_range]
    omega
  constructor
  · simp only [exportWorldToPDF]
    split_ifs <;>
      simp_all [List.countP_append, List.countP_cons, List.countP_map,
        Function.comp_def, charCardItem, DocItem.isCharCard,
        List.length_take, Nat.min_eq_left hpad]
  · simp only [exportWorldToPDF]
    split_ifs <;>
      simp_all [List.countP_append, List.countP_cons, List.countP_map,
        Function.comp_def, charCardItem, DocItem.isScenarioCard]

/-- Claim C7, counterexample: the export filename is not the sanitized
category label followed by the date stamp: the source adds a fixed
world underscore lead-in.  For the Post-Apocalyptic category the
filename therefore does not match the claimed pattern. -/
theorem export_filename_has_world_leadin :
    (exportWorldToPDF samplePostApocalypticWd "2025-01-15").2
        = "world_post_apocalyptic_2025-01-15.pdf" ∧
      "world_post_apocalyptic_2025-01-15.pdf"
        ≠ "post_apocalyptic_2025-01-15.pdf" := by
  exact ⟨rfl, by decide⟩

/-- Claim C7, amended: the export filename is the fixed world lead-in,
then the category label lowercased with every non-alphanumeric
character replaced by underscore, then an underscore, the date stamp
and the pdf extension. -/
theorem export_filename_sanitized_category (wd : WorldData) (today : String)
    (h : wd.worldType = "Post-Apocalyptic") :
    (exportWorldToPDF wd today).2
      = "world_" ++ "post_apocalyptic" ++ "_" ++ today ++ ".pdf" := by
  show exportFilename wd.worldType today = _
  rw [h]
  show "world_" ++ sanitizeWorldType "Post-Apocalyptic" ++ "_" ++ today
      ++ ".pdf" = _
  rw [show sanitizeWorldType "Post-Apocalyptic" = "post_apocalyptic"
    from by decide]

/-- Witness for the amended claim C7 at a concrete aggregate and date. -/
theorem export_filename_sanitized_category_witness :
    samplePostApocalypticWd.worldType = "Post-Apocalyptic" ∧
      (exportWorldToPDF samplePostApocalypticWd "2025-01-15").2
        = "world_" ++ "post_apocalyptic" ++ "_" ++ "2025-01-15" ++ ".pdf" :=
  ⟨rfl,
   export_filename_sanitized_category samplePostApocalypticWd "2025-01-15"
     rfl⟩

end WorldBuild
